import Mathlib

/-!
Verification of the telemetry pipeline (sampling agent + collector service).

The development is a shallow embedding of the two Python source files:
  * `agent/agent.py`   — `get_system_info` (snapshot gathering with per-block
    exception handling);
  * `api/main.py`      — the FastAPI collector: `verify_token`, the pydantic
    `SystemData` schema, `collect_data` (append one JSON line per request) and
    `query_data` (glob + per-file line parsing).

Modelling conventions:
  * Python strings are lists of characters (`PyStr`), compared by code point
    exactly as Python compares and sorts `str`.
  * JSON numbers are modelled as integers (the claims under study do not turn
    on floating-point values); pydantic's lax acceptance of integers for
    `float` fields is therefore the identity here.
  * A stored line of a `.jsonl` file is represented by its parse status
    (`Line.blank` for whitespace-only lines, `Line.ok j` when `json.loads`
    yields `j`, `Line.bad` when `json.loads` raises).  `json.dumps` of the
    collector's record is a single line that `json.loads` round-trips, a
    guarantee of the Python standard library, so a successful append stores
    `Line.ok record`.
  * The storage directory is an association list from file name (relative to
    `DATA_DIR`) to file content.
  * Exceptions raised by the OS/psutil layer are values of `PyExc`; the agent
    code decides which of them its `except` clauses catch.
-/

/-- Python strings, as their list of characters. -/
abbrev PyStr := List Char

/-- JSON values; numbers are modelled as integers (see the header). -/
inductive Json where
  | null
  | bool (b : Bool)
  | int (n : Int)
  | str (s : PyStr)
  | arr (elems : List Json)
  | obj (fields : List (PyStr × Json))

/-- First-match lookup of a key in a JSON object's field list, mirroring the
Python dict produced by `json.loads` (keys are unique there). -/
def jLookup (fields : List (PyStr × Json)) (k : PyStr) : Option Json :=
  match fields with
  | [] => none
  | (k2, v) :: rest => if k2 = k then some v else jLookup rest k

/-- Does the string `s` start with `p`?  Mirrors Python `s.startswith(p)`. -/
def pyStartsWith : PyStr → PyStr → Bool
  | _, [] => true
  | [], _ :: _ => false
  | c :: s, d :: p => if c = d then pyStartsWith s p else false

/-- Does the string `s` end with `p`?  Mirrors Python `s.endswith(p)`. -/
def pyEndsWith (s p : PyStr) : Bool :=
  pyStartsWith s.reverse p.reverse

/-- Helper for `pySplitOnSpace`: prepend a character to the first chunk. -/
def consHead (c : Char) : List PyStr → List PyStr
  | [] => [[c]]
  | h :: t => (c :: h) :: t

/-- Python `s.split(" ")`: split at every single space, keeping empty chunks
(`"a  b".split(" ") == ["a", "", "b"]`, `"".split(" ") == [""]`). -/
def pySplitOnSpace : PyStr → List PyStr
  | [] => [[]]
  | c :: rest =>
      if c = ' ' then [] :: pySplitOnSpace rest
      else consHead c (pySplitOnSpace rest)

/-- Python `parts[1]`: `some` the element at index 1, `none` when the list is
too short (an `IndexError` in Python). -/
def pyIndex1 : List PyStr → Option PyStr
  | _ :: t :: _ => some t
  | _ => none

/-- Python's `<` on strings: lexicographic comparison by code point.  This is
the order `sorted` uses on file paths. -/
def pyLt : PyStr → PyStr → Bool
  | [], [] => false
  | [], _ :: _ => true
  | _ :: _, [] => false
  | a :: as, b :: bs => if a < b then true else if b < a then false else pyLt as bs

/- ## Agent model (`agent/agent.py`) -/

/-- The exception classes distinguished by `get_system_info`'s `except`
clauses: the three psutil exceptions it lists, and every other exception. -/
inductive ExcKind where
  | noSuchProcess
  | accessDenied
  | zombieProcess
  | generic
deriving DecidableEq

/-- A raised Python exception: its class and its `str(e)` message. -/
structure PyExc where
  kind : ExcKind
  msg : PyStr
deriving DecidableEq

/-- Result of the psutil CPU calls performed inside the first `try` block:
`psutil.cpu_count(logical=False)` / `(logical=True)` may return `None`;
`psutil.cpu_freq()` may return `None` (then the code stores `"N/A"`);
`psutil.cpu_percent(interval=1)` yields the usage number. -/
structure CpuRaw where
  physical_cores : Option Int
  total_cores : Option Int
  freq_current : Option Int
  usage_percent : Int
deriving DecidableEq

/-- One entry of `psutil.process_iter(['pid', 'name', 'username'])`. -/
structure ProcRaw where
  pid : Int
  name : PyStr
  username : Option PyStr
deriving DecidableEq

/-- One entry of `psutil.users()`: `u.name` and `u.terminal` (may be `None`). -/
structure UserRaw where
  name : PyStr
  terminal : Option PyStr
deriving DecidableEq

/-- The execution environment seen by one call of `get_system_info`: what
`platform` reports and what each of the three psutil query blocks would
produce — either a value or a raised exception. -/
structure SysEnv where
  platform_system : PyStr
  platform_version : PyStr
  cpu_result : Except PyExc CpuRaw
  proc_result : Except PyExc (List ProcRaw)
  users_result : Except PyExc (List UserRaw)

/-- The `{"error": msg}` marker dict the agent substitutes on failure. -/
def errorMarker (msg : PyStr) : Json :=
  .obj [("error".data, .str msg)]

/-- JSON for an optional integer (`None` becomes `null`). -/
def optIntJson : Option Int → Json
  | some n => .int n
  | none => .null

/-- JSON for an optional string (`None` becomes `null`). -/
def optStrJson : Option PyStr → Json
  | some s => .str s
  | none => .null

/-- The `cpu_info` dict built in the first `try` block. -/
def cpuRawJson (c : CpuRaw) : Json :=
  .obj [("physical_cores".data, optIntJson c.physical_cores),
        ("total_cores".data, optIntJson c.total_cores),
        ("frequency".data,
          match c.freq_current with
          | some n => .int n
          | none => .str "N/A".data),
        ("usage_percent".data, .int c.usage_percent)]

/-- One element of the `processes` list comprehension. -/
def procRawJson (p : ProcRaw) : Json :=
  .obj [("pid".data, .int p.pid), ("name".data, .str p.name),
        ("username".data, optStrJson p.username)]

/-- One element of the `active_users` list comprehension. -/
def userRawJson (u : UserRaw) : Json :=
  .obj [("user".data, .str u.name), ("terminal".data, optStrJson u.terminal)]

/-- Which exception classes the `except` clause of the process-listing block
catches: exactly `psutil.NoSuchProcess`, `psutil.AccessDenied`,
`psutil.ZombieProcess`. -/
def caughtInProcBlock : ExcKind → Bool
  | .noSuchProcess => true
  | .accessDenied => true
  | .zombieProcess => true
  | .generic => false

/-- The fixed text prepended to the process-block error marker. -/
def procErrText : PyStr := "No se pudo acceder a todos los procesos: ".data

/-- Shallow embedding of `get_system_info` (`agent/agent.py`).  The CPU block
and the users block catch every `Exception`; the process block catches only
the three psutil exceptions, so any other exception raised there escapes the
function (modelled as `Except.error`). -/
def get_system_info (env : SysEnv) : Except PyExc Json :=
  let cpu_info : Json :=
    match env.cpu_result with
    | .ok c => cpuRawJson c
    | .error e => errorMarker e.msg
  let processesE : Except PyExc Json :=
    match env.proc_result with
    | .ok ps => .ok (.arr (ps.map procRawJson))
    | .error e =>
        if caughtInProcBlock e.kind then
          .ok (.arr [errorMarker (procErrText ++ e.msg)])
        else .error e
  match processesE with
  | .error e => .error e
  | .ok processes =>
      let active_users : Json :=
        match env.users_result with
        | .ok us => .arr (us.map userRawJson)
        | .error e => errorMarker e.msg
      .ok (.obj [("os_name".data, .str env.platform_system),
                 ("os_version".data, .str env.platform_version),
                 ("cpu_info".data, cpu_info),
                 ("running_processes".data, processes),
                 ("logged_in_users".data, active_users)])

/- ## Collector model (`api/main.py`) -/

/-- The configured secret token (`API_TOKEN` in `api/main.py`). -/
def API_TOKEN : PyStr := "micompania_secret_token_12345".data

/-- Outcome of a request handler: a value, a raised `HTTPException`, or some
other raised Python error (by its class name). -/
inductive PyOutcome (α : Type) where
  | ok (val : α)
  | httpExc (status : Nat) (detail : PyStr)
  | pyErr (excName : PyStr)

/-- Shallow embedding of `verify_token`: require the `Bearer ` prefix, then
compare `authorization.split(" ")[1]` with the secret.  The indexing is kept
partial (`pyIndex1`) so that the absence of an `IndexError` is a theorem, not
an assumption. -/
def verify_token (authorization : PyStr) : PyOutcome Unit :=
  if pyStartsWith authorization "Bearer ".data then
    match pyIndex1 (pySplitOnSpace authorization) with
    | some token =>
        if token = API_TOKEN then .ok ()
        else .httpExc 401 "Token de autorización inválido".data
    | none => .pyErr "IndexError".data
  else .httpExc 401 "Formato de token inválido".data

/- ### The pydantic schema (`CPUInfo`, `ProcessInfo`, `UserInfo`, `SystemData`)

Validation follows pydantic v2 defaults for JSON input: unknown keys of an
object are ignored, absent optional fields take their `None` default, `str`
fields accept JSON strings only, `int` fields accept JSON integers, and a
member of a union is tried structurally.  (Pydantic's numeric-string
coercions are outside the modelled fragment; no claim turns on them.) -/

/-- A `float | str | None` value (`CPUInfo.frequency`). -/
inductive FreqVal where
  | num (n : Int)
  | str (s : PyStr)
deriving DecidableEq

/-- The `CPUInfo` pydantic model: every field optional with default `None`. -/
structure CPUInfo where
  physical_cores : Option Int := none
  total_cores : Option Int := none
  frequency : Option FreqVal := none
  usage_percent : Option Int := none
  error : Option PyStr := none
deriving DecidableEq

/-- The `ProcessInfo` pydantic model. -/
structure ProcessInfo where
  pid : Int
  name : PyStr
  username : Option PyStr := none
deriving DecidableEq

/-- The `UserInfo` pydantic model. -/
structure UserInfo where
  user : PyStr
  terminal : Option PyStr := none
deriving DecidableEq

/-- One element of `running_processes : list[ProcessInfo | dict]`: either a
validated `ProcessInfo` or an arbitrary JSON object kept as a raw dict. -/
inductive ProcEntry where
  | model (p : ProcessInfo)
  | rawDict (fields : List (PyStr × Json))

/-- The value of `logged_in_users : list[UserInfo] | dict`. -/
inductive UsersVal where
  | users (us : List UserInfo)
  | rawDict (fields : List (PyStr × Json))

/-- A validated `SystemData` payload. -/
structure SystemData where
  os_name : PyStr
  os_version : PyStr
  cpu_info : CPUInfo
  running_processes : List ProcEntry
  logged_in_users : UsersVal

/-- Validate an `int | None` field with default `None`. -/
def vOptInt (fields : List (PyStr × Json)) (k : PyStr) : Option (Option Int) :=
  match jLookup fields k with
  | none => some none
  | some .null => some none
  | some (.int n) => some (some n)
  | some _ => none

/-- Validate a `str | None` field with default `None`. -/
def vOptStr (fields : List (PyStr × Json)) (k : PyStr) : Option (Option PyStr) :=
  match jLookup fields k with
  | none => some none
  | some .null => some none
  | some (.str s) => some (some s)
  | some _ => none

/-- Validate the `float | str | None` field `frequency`. -/
def vOptFreq (fields : List (PyStr × Json)) (k : PyStr) : Option (Option FreqVal) :=
  match jLookup fields k with
  | none => some none
  | some .null => some none
  | some (.int n) => some (some (.num n))
  | some (.str s) => some (some (.str s))
  | some _ => none

/-- Validate a JSON value against the `CPUInfo` model. -/
def validateCPUInfo (j : Json) : Option CPUInfo :=
  match j with
  | .obj fields =>
      match vOptInt fields "physical_cores".data, vOptInt fields "total_cores".data,
            vOptFreq fields "frequency".data, vOptInt fields "usage_percent".data,
            vOptStr fields "error".data with
      | some pc, some tc, some fr, some up, some er => some ⟨pc, tc, fr, up, er⟩
      | _, _, _, _, _ => none
  | _ => none

/-- Validate a JSON value against the `ProcessInfo` model (`pid` and `name`
required, `username` optional). -/
def validateProcessInfo (j : Json) : Option ProcessInfo :=
  match j with
  | .obj fields =>
      match jLookup fields "pid".data, jLookup fields "name".data,
            vOptStr fields "username".data with
      | some (.int pid), some (.str nm), some un => some ⟨pid, nm, un⟩
      | _, _, _ => none
  | _ => none

/-- Validate a JSON value against the `UserInfo` model. -/
def validateUserInfo (j : Json) : Option UserInfo :=
  match j with
  | .obj fields =>
      match jLookup fields "user".data, vOptStr fields "terminal".data with
      | some (.str u), some t => some ⟨u, t⟩
      | _, _ => none
  | _ => none

/-- Validate one element of `running_processes` against `ProcessInfo | dict`:
a `ProcessInfo`-shaped object becomes the model, any other JSON object is
accepted as a raw dict, everything else is rejected. -/
def validateProcEntry (j : Json) : Option ProcEntry :=
  match validateProcessInfo j with
  | some p => some (.model p)
  | none =>
      match j with
      | .obj fields => some (.rawDict fields)
      | _ => none

/-- All-or-nothing traversal: validate every element or fail. -/
def mapOpt (f : α → Option β) : List α → Option (List β)
  | [] => some []
  | x :: xs =>
      match f x, mapOpt f xs with
      | some y, some ys => some (y :: ys)
      | _, _ => none

/-- Validate `logged_in_users` against `list[UserInfo] | dict`. -/
def validateUsersVal (j : Json) : Option UsersVal :=
  match j with
  | .arr elems =>
      match mapOpt validateUserInfo elems with
      | some us => some (.users us)
      | none => none
  | .obj fields => some (.rawDict fields)
  | _ => none

/-- Validate a JSON body against the `SystemData` model: the five declared
fields are required (with `os_name`/`os_version` strings), any further keys
of the object are ignored, per pydantic's default behaviour. -/
def validate_SystemData (j : Json) : Option SystemData :=
  match j with
  | .obj fields =>
      match jLookup fields "os_name".data, jLookup fields "os_version".data with
      | some (.str osn), some (.str osv) =>
          match jLookup fields "cpu_info".data with
          | some cj =>
              match validateCPUInfo cj with
              | some cpu =>
                  match jLookup fields "running_processes".data with
                  | some (.arr pes) =>
                      match mapOpt validateProcEntry pes with
                      | some procs =>
                          match jLookup fields "logged_in_users".data with
                          | some uj =>
                              match validateUsersVal uj with
                              | some uv => some ⟨osn, osv, cpu, procs, uv⟩
                              | none => none
                          | none => none
                      | none => none
                  | _ => none
              | none => none
          | none => none
      | _, _ => none
  | _ => none

/-- `model_dump` of the `CPUInfo` model (all fields serialized, `None` as
`null`). -/
def dumpCPUInfo (c : CPUInfo) : Json :=
  .obj [("physical_cores".data, optIntJson c.physical_cores),
        ("total_cores".data, optIntJson c.total_cores),
        ("frequency".data,
          match c.frequency with
          | some (.num n) => .int n
          | some (.str s) => .str s
          | none => .null),
        ("usage_percent".data, optIntJson c.usage_percent),
        ("error".data, optStrJson c.error)]

/-- `model_dump` of one `running_processes` element. -/
def dumpProcEntry : ProcEntry → Json
  | .model p => .obj [("pid".data, .int p.pid), ("name".data, .str p.name),
                      ("username".data, optStrJson p.username)]
  | .rawDict fields => .obj fields

/-- `model_dump` of `logged_in_users`. -/
def dumpUsers : UsersVal → Json
  | .users us => .arr (us.map fun u =>
      .obj [("user".data, .str u.user), ("terminal".data, optStrJson u.terminal)])
  | .rawDict fields => .obj fields

/-- `data.model_dump()`: the validated payload back as a JSON dict. -/
def model_dump (d : SystemData) : Json :=
  .obj [("os_name".data, .str d.os_name),
        ("os_version".data, .str d.os_version),
        ("cpu_info".data, dumpCPUInfo d.cpu_info),
        ("running_processes".data, .arr (d.running_processes.map dumpProcEntry)),
        ("logged_in_users".data, dumpUsers d.logged_in_users)]

/- ### Storage and the two endpoints -/

/-- One line of a `.jsonl` partition file, by its parse status. -/
inductive Line where
  | blank
  | ok (j : Json)
  | bad

/-- The storage directory: file name (relative to `DATA_DIR`) to content. -/
abbrev Storage := List (PyStr × List Line)

/-- The per-file reading loop of `query_data`: blank lines are skipped,
parsed lines are appended, and the first `json.loads` failure raises out of
the loop — the records appended before it are kept, the rest of the file is
abandoned (the `except` block only logs). -/
def readLines : List Line → List Json
  | [] => []
  | .blank :: rest => readLines rest
  | .ok j :: rest => j :: readLines rest
  | .bad :: _ => []

/-- All parseable non-blank lines of a file, with no early abort.  This is
the reading the specification describes for fully well-formed files. -/
def parsedLines : List Line → List Json
  | [] => []
  | .blank :: rest => parsedLines rest
  | .ok j :: rest => j :: parsedLines rest
  | .bad :: rest => parsedLines rest

/-- The `.jsonl` suffix of every partition file. -/
def jsonlExt : PyStr := ".jsonl".data

/-- Does `name` match the glob pattern `<ip>_*.jsonl`?  The wildcard matches
any run of characters not containing a path separator. -/
def globMatch (ip fname : PyStr) : Bool :=
  pyStartsWith fname (ip ++ ['_']) &&
  pyEndsWith fname jsonlExt &&
  decide (ip.length + 1 + 6 ≤ fname.length) &&
  ((fname.drop (ip.length + 1)).take ((fname.drop (ip.length + 1)).length - 6)).all
    (fun c => c != '/')

/-- Stable insertion for descending sort by file name (Python
`sorted(files, reverse=True)`). -/
def insertFileDesc (x : PyStr × List Line) :
    List (PyStr × List Line) → List (PyStr × List Line)
  | [] => [x]
  | y :: ys => if pyLt y.1 x.1 then x :: y :: ys else y :: insertFileDesc x ys

/-- Sort the matched files by file name, most recent (largest) first. -/
def sortFilesDesc : List (PyStr × List Line) → List (PyStr × List Line)
  | [] => []
  | x :: xs => insertFileDesc x (sortFilesDesc xs)

/-- The 404 detail message of `query_data`. -/
def notFoundDetail (ip : PyStr) : PyStr :=
  "No se encontraron datos para la IP: ".data ++ ip

/-- Shallow embedding of `GET /query/{ip_address}`: glob the matching
partition files, 404 when none, otherwise read them most-recent-first with
the per-file abort-on-parse-error loop. -/
def query_data (storage : Storage) (ip : PyStr) : PyOutcome (List Json) :=
  match storage.filter (fun f => globMatch ip f.1) with
  | [] => .httpExc 404 (notFoundDetail ip)
  | f :: rest =>
      .ok (((sortFilesDesc (f :: rest)).map (fun f => readLines f.2)).flatten)

/-- Append one line to a file of the storage directory, creating the file
when absent (Python `open(filename, "a")`). -/
def appendLine (storage : Storage) (nm : PyStr) (l : Line) : Storage :=
  if storage.any (fun f => decide (f.1 = nm)) then
    storage.map (fun f => if f.1 = nm then (f.1, f.2 ++ [l]) else f)
  else storage ++ [(nm, [l])]

/-- The record `collect_data` writes: server timestamp plus the validated
payload's `model_dump`. -/
def recordJson (now_iso : PyStr) (payload : Json) : Json :=
  .obj [("server_timestamp".data, .str now_iso), ("payload".data, payload)]

/-- The success body of `POST /collect`. -/
def successJson (client_ip : PyStr) : Json :=
  .obj [("status".data, .str "success".data),
        ("message".data, .str ("Datos recibidos de ".data ++ client_ip))]

/-- Shallow embedding of the `collect_data` handler body (auth and schema
validation already passed): append one `Line.ok` record to the partition
file `<client_ip>_<today>.jsonl`. -/
def collect_data (data : SystemData) (client_ip today_date now_iso : PyStr)
    (storage : Storage) : Storage × Json :=
  let filename := client_ip ++ ['_'] ++ today_date ++ jsonlExt
  let record := recordJson now_iso (model_dump data)
  (appendLine storage filename (.ok record), successJson client_ip)

/-- One full `POST /collect` request: FastAPI runs the `verify_token`
dependency, then validates the body against `SystemData` (422 on failure),
then runs the handler.  Returns the storage after the request and the
response. -/
def post_collect (authorization : PyStr) (body : Json)
    (client_ip today_date now_iso : PyStr) (storage : Storage) :
    Storage × PyOutcome Json :=
  match verify_token authorization with
  | .ok _ =>
      match validate_SystemData body with
      | some data =>
          let r := collect_data data client_ip today_date now_iso storage
          (r.1, .ok r.2)
      | none => (storage, .httpExc 422 "Unprocessable Entity".data)
  | .httpExc s d => (storage, .httpExc s d)
  | .pyErr n => (storage, .pyErr n)

/-- The header the agent actually sends: `Authorization: Bearer <API_TOKEN>`. -/
def agentAuthHeader : PyStr := "Bearer ".data ++ API_TOKEN

/-- The field list of a sample valid snapshot body. -/
def sampleFields : List (PyStr × Json) :=
  [("os_name".data, .str "Linux".data),
   ("os_version".data, .str "5.15.0".data),
   ("cpu_info".data, .obj [("physical_cores".data, .int 4),
                           ("usage_percent".data, .int 12)]),
   ("running_processes".data,
     .arr [.obj [("pid".data, .int 1), ("name".data, .str "init".data)]]),
   ("logged_in_users".data, .arr [.obj [("user".data, .str "root".data)]])]

/-- A sample valid snapshot body, used to instantiate round-trip theorems. -/
def sampleBody : Json := .obj sampleFields

/-- The validated form of `sampleBody`. -/
def sampleData : SystemData :=
  ⟨"Linux".data, "5.15.0".data, ⟨some 4, none, none, some 12, none⟩,
   [.model ⟨1, "init".data, none⟩], .users [⟨"root".data, none⟩]⟩

/-- Greater-or-equal-by-file-name, the order `sortFilesDesc` establishes. -/
def fileGE (a b : PyStr × List Line) : Prop :=
  pyLt b.1 a.1 = true ∨ a.1 = b.1

/- ## Lemmas about the string helpers -/

theorem pyStartsWith_append (p s : PyStr) : pyStartsWith (p ++ s) p = true := by
  induction p with
  | nil => cases s <;> rfl
  | cons c cs ih => simpa [pyStartsWith] using ih

theorem pyStartsWith_exists {s p : PyStr} (h : pyStartsWith s p = true) :
    ∃ r, s = p ++ r := by
  induction p generalizing s with
  | nil => exact ⟨s, rfl⟩
  | cons d ds ih =>
    cases s with
    | nil => simp [pyStartsWith] at h
    | cons c cs =>
      simp only [pyStartsWith] at h
      by_cases hc : c = d
      · rw [if_pos hc] at h
        obtain ⟨r, hr⟩ := ih h
        exact ⟨r, by simp [hc, hr]⟩
      · rw [if_neg hc] at h
        exact absurd h (by simp)

theorem pySplitOnSpace_ne_nil (s : PyStr) : pySplitOnSpace s ≠ [] := by
  induction s with
  | nil => simp [pySplitOnSpace]
  | cons c cs ih =>
    simp only [pySplitOnSpace]
    by_cases hc : c = ' '
    · simp [hc]
    · rw [if_neg hc]
      cases h : pySplitOnSpace cs with
      | nil => exact absurd h ih
      | cons a b => simp [consHead]

theorem pySplitOnSpace_length {s : PyStr} (h : ' ' ∈ s) :
    2 ≤ (pySplitOnSpace s).length := by
  induction s with
  | nil => simp at h
  | cons c cs ih =>
    simp only [pySplitOnSpace]
    by_cases hc : c = ' '
    · rw [if_pos hc]
      have := pySplitOnSpace_ne_nil cs
      have hlen : 1 ≤ (pySplitOnSpace cs).length := by
        cases hcs : pySplitOnSpace cs with
        | nil => exact absurd hcs this
        | cons a b => simp
      simpa using hlen
    · rw [if_neg hc]
      have hmem : ' ' ∈ cs := by
        rcases List.mem_cons.1 h with h' | h'
        · exact absurd h'.symm hc
        · exact h'
      have h2 := ih hmem
      cases hcs : pySplitOnSpace cs with
      | nil => exact absurd hcs (pySplitOnSpace_ne_nil cs)
      | cons a b => rw [hcs] at h2; simpa [consHead] using h2

theorem pySplitOnSpace_append_space {xs : PyStr} (rest : PyStr) (h : ' ' ∉ xs) :
    pySplitOnSpace (xs ++ ' ' :: rest) = xs :: pySplitOnSpace rest := by
  induction xs with
  | nil => simp [pySplitOnSpace]
  | cons c cs ih =>
    have hc : c ≠ ' ' := fun hc => h (by simp [hc])
    have hcs : ' ' ∉ cs := fun hm => h (by simp [hm])
    show pySplitOnSpace (c :: (cs ++ ' ' :: rest)) = (c :: cs) :: pySplitOnSpace rest
    simp only [pySplitOnSpace, if_neg hc]
    rw [ih hcs]
    rfl

theorem pyIndex1_of_length {l : List PyStr} (h : 2 ≤ l.length) :
    ∃ t, pyIndex1 l = some t := by
  match l, h with
  | _ :: t :: _, _ => exact ⟨t, rfl⟩

/- ## Lemmas about the lexicographic order -/

theorem pyLt_trichotomy : ∀ a b : PyStr, pyLt a b = true ∨ pyLt b a = true ∨ a = b
  | [], [] => .inr (.inr rfl)
  | [], _ :: _ => .inl (by simp [pyLt])
  | _ :: _, [] => .inr (.inl (by simp [pyLt]))
  | a :: as, b :: bs => by
    rcases lt_trichotomy a b with h | h | h
    · exact .inl (by simp [pyLt, h])
    · subst h
      rcases pyLt_trichotomy as bs with h' | h' | h'
      · exact .inl (by simp [pyLt, lt_irrefl, h'])
      · exact .inr (.inl (by simp [pyLt, lt_irrefl, h']))
      · exact .inr (.inr (by rw [h']))
    · exact .inr (.inl (by simp [pyLt, h]))

theorem pyLt_trans : ∀ a b c : PyStr,
    pyLt a b = true → pyLt b c = true → pyLt a c = true
  | [], b, c, h1, h2 => by
    cases b with
    | nil => simp [pyLt] at h1
    | cons bb bs =>
      cases c with
      | nil => simp [pyLt] at h2
      | cons cc cs => simp [pyLt]
  | a :: as, b, c, h1, h2 => by
    cases b with
    | nil => simp [pyLt] at h1
    | cons bb bs =>
      cases c with
      | nil => simp [pyLt] at h2
      | cons cc cs =>
        simp only [pyLt] at h1 h2 ⊢
        by_cases hab : a < bb
        · by_cases hbc : bb < cc
          · simp [lt_trans hab hbc]
          · by_cases hcb : cc < bb
            · rw [if_neg hbc, if_pos hcb] at h2; exact absurd h2 (by simp)
            · have heq : bb = cc := le_antisymm (not_lt.1 hcb) (not_lt.1 hbc)
              simp [heq ▸ hab]
        · by_cases hba : bb < a
          · rw [if_neg hab, if_pos hba] at h1; exact absurd h1 (by simp)
          · have heq : a = bb := le_antisymm (not_lt.1 hba) (not_lt.1 hab)
            rw [if_neg hab, if_neg hba] at h1
            by_cases hbc : bb < cc
            · simp [heq ▸ hbc]
            · by_cases hcb : cc < bb
              · rw [if_neg hbc, if_pos hcb] at h2; exact absurd h2 (by simp)
              · have heq2 : bb = cc := le_antisymm (not_lt.1 hcb) (not_lt.1 hbc)
                have heq3 : a = cc := heq.trans heq2
                rw [if_neg hbc, if_neg hcb] at h2
                subst heq3
                rw [if_neg (lt_irrefl a), if_neg (lt_irrefl a)]
                exact pyLt_trans as bs cs h1 h2

/- ## Lemmas about file reading -/

theorem readLines_eq_parsedLines {ls : List Line} (h : Line.bad ∉ ls) :
    readLines ls = parsedLines ls := by
  induction ls with
  | nil => rfl
  | cons l rest ih =>
    have hrest : Line.bad ∉ rest := fun hm => h (List.mem_cons_of_mem _ hm)
    cases l with
    | blank => simpa [readLines, parsedLines] using ih hrest
    | ok j => simpa [readLines, parsedLines] using ih hrest
    | bad => exact absurd (List.mem_cons_self _ _) h

theorem readLines_append_bad {pre : List Line} (suf : List Line)
    (h : Line.bad ∉ pre) :
    readLines (pre ++ Line.bad :: suf) = parsedLines pre := by
  induction pre with
  | nil => rfl
  | cons l rest ih =>
    have hrest : Line.bad ∉ rest := fun hm => h (List.mem_cons_of_mem _ hm)
    cases l with
    | blank => simpa [readLines, parsedLines] using ih hrest
    | ok j => simpa [readLines, parsedLines] using ih hrest
    | bad => exact absurd (List.mem_cons_self _ _) h

theorem readLines_all_blank {ls : List Line} (h : ∀ l ∈ ls, l = Line.blank) :
    readLines ls = [] := by
  induction ls with
  | nil => rfl
  | cons l rest ih =>
    have hl := h l (List.mem_cons_self _ _)
    subst hl
    exact ih fun l hl => h l (List.mem_cons_of_mem _ hl)

/- ## Lemmas about the descending file sort -/

theorem fileGE_trans {a b c : PyStr × List Line}
    (h1 : fileGE a b) (h2 : fileGE b c) : fileGE a c := by
  rcases h1 with h1 | h1 <;> rcases h2 with h2 | h2
  · exact .inl (pyLt_trans _ _ _ h2 h1)
  · exact .inl (by rw [h2] at h1; exact h1)
  · exact .inl (by rw [← h1] at h2; exact h2)
  · exact .inr (h1.trans h2)

theorem fileGE_of_not_lt {x y : PyStr × List Line}
    (h : ¬ pyLt y.1 x.1 = true) : fileGE y x := by
  rcases pyLt_trichotomy x.1 y.1 with h' | h' | h'
  · exact .inl h'
  · exact absurd h' h
  · exact .inr h'.symm

theorem insertFileDesc_perm (x : PyStr × List Line) (l : List (PyStr × List Line)) :
    (insertFileDesc x l).Perm (x :: l) := by
  induction l with
  | nil => exact List.Perm.refl _
  | cons y ys ih =>
    simp only [insertFileDesc]
    by_cases h : pyLt y.1 x.1 = true
    · rw [if_pos h]
    · rw [if_neg h]
      exact (ih.cons y).trans (List.Perm.swap x y ys)

theorem sortFilesDesc_perm (l : List (PyStr × List Line)) :
    (sortFilesDesc l).Perm l := by
  induction l with
  | nil => exact List.Perm.refl _
  | cons x xs ih =>
    exact (insertFileDesc_perm x (sortFilesDesc xs)).trans (ih.cons x)

theorem mem_insertFileDesc {z x : PyStr × List Line} {l : List (PyStr × List Line)} :
    z ∈ insertFileDesc x l ↔ z = x ∨ z ∈ l := by
  rw [(insertFileDesc_perm x l).mem_iff, List.mem_cons]

theorem pairwise_insertFileDesc (x : PyStr × List Line)
    {l : List (PyStr × List Line)} (h : l.Pairwise fileGE) :
    (insertFileDesc x l).Pairwise fileGE := by
  induction l with
  | nil => exact List.pairwise_singleton _ _
  | cons y ys ih =>
    obtain ⟨hy, hys⟩ := List.pairwise_cons.1 h
    simp only [insertFileDesc]
    by_cases hxy : pyLt y.1 x.1 = true
    · rw [if_pos hxy]
      refine List.pairwise_cons.2 ⟨?_, h⟩
      intro z hz
      rcases List.mem_cons.1 hz with hz | hz
      · exact hz ▸ .inl hxy
      · exact fileGE_trans (.inl hxy) (hy z hz)
    · rw [if_neg hxy]
      refine List.pairwise_cons.2 ⟨?_, ih hys⟩
      intro z hz
      rcases mem_insertFileDesc.1 hz with hz | hz
      · exact hz ▸ fileGE_of_not_lt hxy
      · exact hy z hz

theorem pairwise_sortFilesDesc (l : List (PyStr × List Line)) :
    (sortFilesDesc l).Pairwise fileGE := by
  induction l with
  | nil => exact List.Pairwise.nil
  | cons x xs ih => exact pairwise_insertFileDesc x ih

/- ## Lemmas about JSON object lookup -/

theorem jLookup_append (fs gs : List (PyStr × Json)) (n : PyStr) :
    jLookup (fs ++ gs) n =
      match jLookup fs n with
      | some v => some v
      | none => jLookup gs n := by
  induction fs with
  | nil => rfl
  | cons p rest ih =>
    obtain ⟨k2, v2⟩ := p
    by_cases hk : k2 = n
    · simp [jLookup, hk]
    · simpa [jLookup, hk] using ih

theorem jLookup_append_single {k n : PyStr} (fs : List (PyStr × Json)) (v : Json)
    (h : k ≠ n) : jLookup (fs ++ [(k, v)]) n = jLookup fs n := by
  rw [jLookup_append]
  cases hf : jLookup fs n with
  | some w => rfl
  | none => simp [jLookup, h]

/- ## Lemmas about the glob pattern -/

theorem pyEndsWith_append (x p : PyStr) : pyEndsWith (x ++ p) p = true := by
  unfold pyEndsWith
  rw [List.reverse_append]
  exact pyStartsWith_append _ _

theorem globMatch_partition (ip date : PyStr)
    (hdate : date.all (fun c => c != '/') = true) :
    globMatch ip (ip ++ ['_'] ++ date ++ jsonlExt) = true := by
  have hassoc : ip ++ ['_'] ++ date ++ jsonlExt = (ip ++ ['_']) ++ (date ++ jsonlExt) := by
    simp [List.append_assoc]
  have h1 : pyStartsWith (ip ++ ['_'] ++ date ++ jsonlExt) (ip ++ ['_']) = true := by
    rw [hassoc]; exact pyStartsWith_append _ _
  have h2 : pyEndsWith (ip ++ ['_'] ++ date ++ jsonlExt) jsonlExt = true :=
    pyEndsWith_append _ _
  have hext : jsonlExt.length = 6 := rfl
  have h3 : ip.length + 1 + 6 ≤ (ip ++ ['_'] ++ date ++ jsonlExt).length := by
    simp only [List.length_append, List.length_cons, List.length_nil, hext]
    omega
  have hdrop : (ip ++ ['_'] ++ date ++ jsonlExt).drop (ip.length + 1) = date ++ jsonlExt := by
    rw [hassoc]
    have hl : (ip ++ ['_']).length = ip.length + 1 := by simp
    rw [← hl]
    exact List.drop_left _ _
  have hL : (date ++ jsonlExt).length - 6 = date.length := by
    simp only [List.length_append, hext]
    omega
  have h4 : ((date ++ jsonlExt).take ((date ++ jsonlExt).length - 6)).all
      (fun c => c != '/') = true := by
    rw [hL, List.take_left]
    exact hdate
  unfold globMatch
  rw [h1, h2, hdrop, h4, decide_eq_true h3]
  rfl

/- ## Auth lemmas -/

theorem bearer_split (trailing : PyStr) :
    pySplitOnSpace ("Bearer ".data ++ API_TOKEN ++ ' ' :: trailing)
      = "Bearer".data :: API_TOKEN :: pySplitOnSpace trailing := by
  have e0 : "Bearer ".data = "Bearer".data ++ [' '] := rfl
  have e1 : "Bearer ".data ++ API_TOKEN ++ ' ' :: trailing
      = "Bearer".data ++ ' ' :: (API_TOKEN ++ ' ' :: trailing) := by
    rw [e0]; simp [List.append_assoc]
  rw [e1, pySplitOnSpace_append_space _ (by decide),
      pySplitOnSpace_append_space _ (by decide)]

theorem verify_token_of_auth_prefix {s : PyStr}
    (hsw : pyStartsWith s "Bearer ".data = true) :
    ∃ t, pyIndex1 (pySplitOnSpace s) = some t := by
  obtain ⟨r, hr⟩ := pyStartsWith_exists hsw
  have hmem : ' ' ∈ s := by
    rw [hr]
    exact List.mem_append.2 (.inl (by decide))
  exact pyIndex1_of_length (pySplitOnSpace_length hmem)

/- ## Claim C10 -/

/-- Claim C10: for every `Authorization` header of the form
`"Bearer " + secret + " " + trailing`, `verify_token` authorizes the request
(content after the correct token is ignored); and `verify_token` is total on
all header strings — it either authorizes or raises the 401 `HTTPException`,
never an `IndexError`, because any string passing the `Bearer ` prefix check
splits into at least two space-separated parts. -/
theorem c10_verify_token_trailing_ignored_and_total :
    (∀ trailing : PyStr,
        verify_token ("Bearer ".data ++ API_TOKEN ++ ' ' :: trailing)
          = .ok ()) ∧
    (∀ s : PyStr, verify_token s = .ok () ∨
        ∃ d, verify_token s = .httpExc 401 d) := by
  constructor
  · intro trailing
    have hsw : pyStartsWith ("Bearer ".data ++ API_TOKEN ++ ' ' :: trailing)
        "Bearer ".data = true := by
      have h := pyStartsWith_append "Bearer ".data (API_TOKEN ++ ' ' :: trailing)
      simpa [List.append_assoc] using h
    unfold verify_token
    rw [if_pos hsw, bearer_split]
    simp [pyIndex1]
  · intro s
    by_cases hsw : pyStartsWith s "Bearer ".data = true
    · obtain ⟨t, ht⟩ := verify_token_of_auth_prefix hsw
      by_cases htok : t = API_TOKEN
      · refine .inl ?_
        unfold verify_token
        rw [if_pos hsw, ht, htok]
        simp
      · refine .inr ⟨"Token de autorización inválido".data, ?_⟩
        unfold verify_token
        rw [if_pos hsw, ht]
        simp [htok]
    · refine .inr ⟨"Formato de token inválido".data, ?_⟩
      unfold verify_token
      rw [if_neg hsw]

/- ## Claim C8 -/

/-- Claim C8: every `POST /collect` whose `Authorization` header either does
not start with the literal `Bearer ` or whose extracted token (the second
space-separated component) differs from the configured secret fails with a
401 authorization error, and the storage is unchanged — no line is appended
to any partition file. -/
theorem c8_auth_failure_rejects_and_writes_nothing
    (auth : PyStr) (body : Json) (ip date iso : PyStr) (storage : Storage)
    (h : pyStartsWith auth "Bearer ".data = false ∨
         pyIndex1 (pySplitOnSpace auth) ≠ some API_TOKEN) :
    ∃ d, post_collect auth body ip date iso storage = (storage, .httpExc 401 d) := by
  by_cases hsw : pyStartsWith auth "Bearer ".data = true
  · have htok : pyIndex1 (pySplitOnSpace auth) ≠ some API_TOKEN := by
      rcases h with h | h
      · rw [hsw] at h; exact absurd h (by simp)
      · exact h
    obtain ⟨t, ht⟩ := verify_token_of_auth_prefix hsw
    have htne : t ≠ API_TOKEN := fun he => htok (he ▸ ht)
    refine ⟨"Token de autorización inválido".data, ?_⟩
    unfold post_collect verify_token
    rw [if_pos hsw, ht]
    simp [htne]
  · refine ⟨"Formato de token inválido".data, ?_⟩
    unfold post_collect verify_token
    rw [if_neg hsw]

/-- Witness for C8: the spec's own test — `Authorization: Bearer wrongtoken`
on an empty storage yields a 401 and leaves the storage empty. -/
theorem c8_witness :
    ∃ d, post_collect "Bearer wrongtoken".data Json.null "1.2.3.4".data
        "2024-01-01".data "T0".data [] = ([], .httpExc 401 d) :=
  c8_auth_failure_rejects_and_writes_nothing _ _ _ _ _ _ (.inr (by decide))

/- ## Claim C7 -/

theorem flatten_map_eq_nil {α β : Type} (g : α → List β) (l : List α)
    (h : ∀ x ∈ l, g x = []) : (l.map g).flatten = [] := by
  induction l with
  | nil => rfl
  | cons x xs ih =>
    simp only [List.map_cons, List.flatten_cons, h x (List.mem_cons_self _ _),
      List.nil_append]
    exact ih fun y hy => h y (List.mem_cons_of_mem _ hy)

/-- Claim C7: `GET /query/{address}` fails with the 404 not-found error naming
the address exactly when zero partition files match the glob `<address>_*.jsonl`;
and when matching files exist but are all empty, the query succeeds with an
empty result instead of a 404. -/
theorem c7_not_found_iff_no_matching_files (storage : Storage) (ip : PyStr) :
    (query_data storage ip = .httpExc 404 (notFoundDetail ip) ↔
        storage.filter (fun f => globMatch ip f.1) = []) ∧
    (storage.filter (fun f => globMatch ip f.1) ≠ [] →
        (∀ f ∈ storage.filter (fun f => globMatch ip f.1), ∀ l ∈ f.2, l = Line.blank) →
        query_data storage ip = .ok []) := by
  cases hm : storage.filter (fun f => globMatch ip f.1) with
  | nil =>
    refine ⟨⟨fun _ => rfl, fun _ => ?_⟩, fun hne _ => absurd rfl hne⟩
    unfold query_data
    rw [hm]
  | cons f rest =>
    constructor
    · constructor
      · intro h
        unfold query_data at h
        rw [hm] at h
        simp at h
      · intro h
        exact absurd h (List.cons_ne_nil f rest)
    · intro _ hblank
      unfold query_data
      rw [hm]
      show PyOutcome.ok (((sortFilesDesc (f :: rest)).map (fun f => readLines f.2)).flatten)
        = PyOutcome.ok []
      have hall : ∀ x ∈ sortFilesDesc (f :: rest), readLines x.2 = [] := by
        intro x hx
        have hxm : x ∈ f :: rest := (sortFilesDesc_perm _).mem_iff.1 hx
        exact readLines_all_blank (hblank x hxm)
      rw [flatten_map_eq_nil _ _ hall]

/-- Witness for C7: one matching empty file gives `200 []`, an address with
no files gives the 404 naming that address. -/
theorem c7_witness :
    query_data [("9.9.9.9_2024-01-01.jsonl".data, [])] "9.9.9.9".data = .ok [] ∧
    query_data [("9.9.9.9_2024-01-01.jsonl".data, [])] "8.8.8.8".data
      = .httpExc 404 (notFoundDetail "8.8.8.8".data) := by
  constructor
  · exact (c7_not_found_iff_no_matching_files _ _).2 (fun h => nomatch h)
      (by
        intro f hf l hl
        rcases List.mem_singleton.1 hf with rfl
        exact absurd hl (List.not_mem_nil l))
  · exact (c7_not_found_iff_no_matching_files _ _).1.mpr rfl

/- ## Claim C5 -/

/-- Claim C5: with one or more matching partition files (all of whose lines
parse), `GET /query/{address}` succeeds and returns the concatenation of the
files' records, files ordered by filename descending (most recent date
first), and within each file the records in original line order. -/
theorem c5_query_concats_descending (storage : Storage) (ip : PyStr)
    (hne : storage.filter (fun f => globMatch ip f.1) ≠ [])
    (hgood : ∀ f ∈ storage.filter (fun f => globMatch ip f.1), Line.bad ∉ f.2) :
    ∃ sorted : List (PyStr × List Line),
      sorted.Perm (storage.filter (fun f => globMatch ip f.1)) ∧
      sorted.Pairwise fileGE ∧
      query_data storage ip = .ok ((sorted.map (fun f => parsedLines f.2)).flatten) := by
  obtain ⟨f, rest, hm⟩ :
      ∃ f rest, storage.filter (fun f => globMatch ip f.1) = f :: rest := by
    cases h : storage.filter (fun f => globMatch ip f.1) with
    | nil => exact absurd h hne
    | cons a b => exact ⟨a, b, rfl⟩
  refine ⟨sortFilesDesc (f :: rest), by rw [hm]; exact sortFilesDesc_perm _,
    pairwise_sortFilesDesc _, ?_⟩
  unfold query_data
  rw [hm]
  show PyOutcome.ok (((sortFilesDesc (f :: rest)).map (fun f => readLines f.2)).flatten)
    = PyOutcome.ok (((sortFilesDesc (f :: rest)).map (fun f => parsedLines f.2)).flatten)
  have hcongr : ∀ x ∈ sortFilesDesc (f :: rest), readLines x.2 = parsedLines x.2 := by
    intro x hx
    have hxm : x ∈ f :: rest := (sortFilesDesc_perm _).mem_iff.1 hx
    exact readLines_eq_parsedLines (hgood x (hm ▸ hxm))
  rw [List.map_congr_left hcongr]

/-- Witness for C5: the spec's example — files for `1.2.3.4` dated
`2024-01-01` and `2024-01-02`; the `2024-01-02` records come first. -/
theorem c5_witness :
    ∃ sorted : List (PyStr × List Line),
      sorted.Perm ([(("1.2.3.4_2024-01-01.jsonl".data : PyStr), [Line.ok (.int 1)]),
                    (("1.2.3.4_2024-01-02.jsonl".data : PyStr), [Line.ok (.int 2)])].filter
        (fun f => globMatch "1.2.3.4".data f.1)) ∧
      sorted.Pairwise fileGE ∧
      query_data [(("1.2.3.4_2024-01-01.jsonl".data : PyStr), [Line.ok (.int 1)]),
                  (("1.2.3.4_2024-01-02.jsonl".data : PyStr), [Line.ok (.int 2)])] "1.2.3.4".data
        = .ok ((sorted.map (fun f => parsedLines f.2)).flatten) := by
  refine c5_query_concats_descending _ _ (fun h => nomatch h) ?_
  intro f hf
  fin_cases hf
  · simp
  · simp

/- ## Claim C3 -/

/-- Counterexample to claim C3 as stated: a partition file containing an
unparseable line is NOT skipped in its entirety — the records parsed before
the bad line are contributed.  Here the corrupt `2024-01-02` file still
contributes `int 10`; the claim predicts the result would be only the
sibling's `[int 20]`. -/
theorem c3_counterexample :
    query_data [("1.2.3.4_2024-01-02.jsonl".data,
                   [Line.ok (.int 10), Line.bad, Line.ok (.int 11)]),
                ("1.2.3.4_2024-01-01.jsonl".data, [Line.ok (.int 20)])]
        "1.2.3.4".data = .ok [.int 10, .int 20] ∧
    query_data [("1.2.3.4_2024-01-02.jsonl".data,
                   [Line.ok (.int 10), Line.bad, Line.ok (.int 11)]),
                ("1.2.3.4_2024-01-01.jsonl".data, [Line.ok (.int 20)])]
        "1.2.3.4".data ≠ .ok [.int 20] := by
  constructor
  · rfl
  · intro h
    have h1 : (PyOutcome.ok [Json.int 10, Json.int 20] : PyOutcome (List Json))
        = .ok [.int 20] := by
      rw [← h]
      rfl
    simp at h1

/-- Claim C3 (amended): a matching partition file with an unparseable line
does not abort the request and does not affect sibling files — the request
still succeeds, the corrupt file contributes exactly the records parsed
before its first unparseable line, and a sibling file (here sorting after
the corrupt one) contributes all of its records. -/
theorem c3_amended_bad_file_keeps_prefix_and_siblings
    (ip fBad fGood : PyStr) (pre suf lsGood : List Line)
    (h1 : globMatch ip fBad = true) (h2 : globMatch ip fGood = true)
    (horder : pyLt fGood fBad = true)
    (hpre : Line.bad ∉ pre) (hg : Line.bad ∉ lsGood) :
    query_data [(fBad, pre ++ Line.bad :: suf), (fGood, lsGood)] ip
      = .ok (parsedLines pre ++ parsedLines lsGood) := by
  have hfil : [(fBad, pre ++ Line.bad :: suf), (fGood, lsGood)].filter
      (fun f => globMatch ip f.1)
      = [(fBad, pre ++ Line.bad :: suf), (fGood, lsGood)] := by
    simp [List.filter, h1, h2]
  have hsort : sortFilesDesc [(fBad, pre ++ Line.bad :: suf), (fGood, lsGood)]
      = [(fBad, pre ++ Line.bad :: suf), (fGood, lsGood)] := by
    simp [sortFilesDesc, insertFileDesc, horder]
  unfold query_data
  rw [hfil]
  show PyOutcome.ok
      (((sortFilesDesc [(fBad, pre ++ Line.bad :: suf), (fGood, lsGood)]).map
        (fun f => readLines f.2)).flatten) = _
  rw [hsort]
  simp [readLines_append_bad suf hpre, readLines_eq_parsedLines hg]

/-- Witness for the amended C3. -/
theorem c3_witness :
    query_data [("1.2.3.4_2024-01-02.jsonl".data,
                   [Line.ok (.int 10)] ++ Line.bad :: [Line.ok (.int 11)]),
                ("1.2.3.4_2024-01-01.jsonl".data, [Line.ok (.int 20)])]
        "1.2.3.4".data
      = .ok (parsedLines [Line.ok (.int 10)] ++ parsedLines [Line.ok (.int 20)]) :=
  c3_amended_bad_file_keeps_prefix_and_siblings _ _ _ _ _ _
    (by decide) (by decide) (by decide) (by simp) (by simp)

/- ## Claim C4 -/

/-- Counterexample to claim C4 as stated: with exactly one unparseable line
in the middle of a file, the valid lines AFTER the bad line are lost — the
query returns only `[int 1]`, and `int 2` (which sits after the bad line) is
not in the result. -/
theorem c4_counterexample :
    query_data [("1.2.3.4_2024-01-02.jsonl".data,
                   [Line.ok (.int 1), Line.bad, Line.ok (.int 2)])]
        "1.2.3.4".data = .ok [.int 1] ∧
    Json.int 2 ∉ ([Json.int 1] : List Json) := by
  refine ⟨rfl, ?_⟩
  intro h
  rcases List.mem_singleton.1 h with h2
  simp at h2

/-- Claim C4 (amended): for a matching partition file whose content is some
fully-parseable prefix, then one unparseable line, then an arbitrary rest,
the query succeeds and returns exactly the parsed records of the prefix —
the lines before the bad line are kept, the lines after it are dropped. -/
theorem c4_amended_lines_after_bad_dropped
    (ip fname : PyStr) (pre suf : List Line)
    (hm : globMatch ip fname = true) (hpre : Line.bad ∉ pre) :
    query_data [(fname, pre ++ Line.bad :: suf)] ip = .ok (parsedLines pre) := by
  have hfil : [(fname, pre ++ Line.bad :: suf)].filter (fun f => globMatch ip f.1)
      = [(fname, pre ++ Line.bad :: suf)] := by
    simp [List.filter, hm]
  unfold query_data
  rw [hfil]
  show PyOutcome.ok (((sortFilesDesc [(fname, pre ++ Line.bad :: suf)]).map
      (fun f => readLines f.2)).flatten) = _
  simp [sortFilesDesc, insertFileDesc, readLines_append_bad suf hpre]

/-- Witness for the amended C4. -/
theorem c4_witness :
    query_data [("5.6.7.8_2024-01-01.jsonl".data,
                   [Line.ok (.int 7), Line.blank] ++ Line.bad :: [Line.ok (.int 8)])]
        "5.6.7.8".data
      = .ok (parsedLines [Line.ok (.int 7), Line.blank]) :=
  c4_amended_lines_after_bad_dropped _ _ _ _ (by decide) (by simp)

/- ## Claim C6 -/

theorem append_not_present {storage : Storage} {ip nm : PyStr}
    (hmatch : storage.filter (fun f => globMatch ip f.1) = [])
    (hgm : globMatch ip nm = true) :
    storage.any (fun f => decide (f.1 = nm)) = false := by
  by_contra hc
  rw [Bool.not_eq_false, List.any_eq_true] at hc
  obtain ⟨f, hfmem, hfeq⟩ := hc
  have hf1 : f.1 = nm := of_decide_eq_true hfeq
  have hmem : f ∈ storage.filter (fun f => globMatch ip f.1) :=
    List.mem_filter.2 ⟨hfmem, by rw [hf1]; exact hgm⟩
  rw [hmatch] at hmem
  exact absurd hmem (List.not_mem_nil f)

theorem appendLine_absent {storage : Storage} {nm : PyStr} {l : Line}
    (h : storage.any (fun f => decide (f.1 = nm)) = false) :
    appendLine storage nm l = storage ++ [(nm, [l])] := by
  unfold appendLine
  rw [if_neg (by rw [h]; simp)]

/-- Claim C6: for a valid snapshot posted from an address with no prior
data, `GET /query/{address}` before the POST fails with the 404 not-found
error; one successful authorized `POST /collect` succeeds, and afterwards
the same query returns exactly one record, namely the server timestamp paired
with the validated snapshot's `model_dump` as its `payload`. -/
theorem c6_collect_then_query_roundtrip
    (storage : Storage) (ip date iso : PyStr) (body : Json) (data : SystemData)
    (hmatch : storage.filter (fun f => globMatch ip f.1) = [])
    (hval : validate_SystemData body = some data)
    (hdate : date.all (fun c => c != '/') = true) :
    query_data storage ip = .httpExc 404 (notFoundDetail ip) ∧
    (post_collect agentAuthHeader body ip date iso storage).2 = .ok (successJson ip) ∧
    query_data (post_collect agentAuthHeader body ip date iso storage).1 ip
      = .ok [recordJson iso (model_dump data)] := by
  have hverify : verify_token agentAuthHeader = .ok () := rfl
  have hgm : globMatch ip (ip ++ ['_'] ++ date ++ jsonlExt) = true :=
    globMatch_partition ip date hdate
  have hany : storage.any (fun f => decide (f.1 = ip ++ ['_'] ++ date ++ jsonlExt)) = false :=
    append_not_present hmatch hgm
  have hpost : post_collect agentAuthHeader body ip date iso storage
      = (storage ++ [(ip ++ ['_'] ++ date ++ jsonlExt,
            [Line.ok (recordJson iso (model_dump data))])],
         .ok (successJson ip)) := by
    unfold post_collect
    rw [hverify, hval]
    unfold collect_data
    show (appendLine storage (ip ++ ['_'] ++ date ++ jsonlExt)
        (Line.ok (recordJson iso (model_dump data))),
      PyOutcome.ok (successJson ip)) = _
    rw [appendLine_absent hany]
  have hq1 : query_data storage ip = .httpExc 404 (notFoundDetail ip) := by
    unfold query_data
    rw [hmatch]
  have hfil : (storage ++ [(ip ++ ['_'] ++ date ++ jsonlExt,
        [Line.ok (recordJson iso (model_dump data))])]).filter
      (fun f => globMatch ip f.1)
      = [(ip ++ ['_'] ++ date ++ jsonlExt,
          [Line.ok (recordJson iso (model_dump data))])] := by
    rw [List.filter_append, hmatch, List.nil_append, List.filter_singleton, hgm]
    rfl
  refine ⟨hq1, by rw [hpost], ?_⟩
  rw [hpost]
  unfold query_data
  rw [hfil]
  show PyOutcome.ok (((sortFilesDesc [(ip ++ ['_'] ++ date ++ jsonlExt,
      [Line.ok (recordJson iso (model_dump data))])]).map
      (fun f => readLines f.2)).flatten) = _
  simp [sortFilesDesc, insertFileDesc, readLines]

/-- Witness for C6 on an initially empty storage with `sampleBody`. -/
theorem c6_witness :
    query_data [] "10.0.0.5".data = .httpExc 404 (notFoundDetail "10.0.0.5".data) ∧
    (post_collect agentAuthHeader sampleBody "10.0.0.5".data "2024-02-03".data
        "2024-02-03T10:00:00".data []).2 = .ok (successJson "10.0.0.5".data) ∧
    query_data (post_collect agentAuthHeader sampleBody "10.0.0.5".data
        "2024-02-03".data "2024-02-03T10:00:00".data []).1 "10.0.0.5".data
      = .ok [recordJson "2024-02-03T10:00:00".data (model_dump sampleData)] :=
  c6_collect_then_query_roundtrip [] _ _ _ _ _ rfl rfl (by decide)

/- ## Claim C1 -/

/-- Counterexample to claim C1 as stated: in an execution environment where
all three OS queries raise but the process-listing query raises an exception
outside the three psutil classes listed in its `except` clause, the exception
escapes `get_system_info` instead of being turned into an error marker. -/
theorem c1_counterexample :
    get_system_info ⟨"Linux".data, "5.0".data,
        .error ⟨.generic, "cpufail".data⟩,
        .error ⟨.generic, "boom".data⟩,
        .error ⟨.generic, "userfail".data⟩⟩
      = .error ⟨.generic, "boom".data⟩ := rfl

/-- Claim C1 (amended): whenever the process-listing query either succeeds or
raises one of the three psutil exceptions its `except` clause catches (the
CPU and users queries may fail arbitrarily), `get_system_info` returns
normally with a dict holding exactly the keys `os_name`, `os_version`,
`cpu_info`, `running_processes`, `logged_in_users`, and each failed
sub-collection is replaced by its error marker. -/
theorem c1_amended_returns_snapshot_when_proc_exception_caught (env : SysEnv)
    (h : (∃ ps, env.proc_result = .ok ps) ∨
         (∃ e, env.proc_result = .error e ∧ caughtInProcBlock e.kind = true)) :
    ∃ fields,
      get_system_info env = .ok (.obj fields) ∧
      fields.map Prod.fst = ["os_name".data, "os_version".data, "cpu_info".data,
        "running_processes".data, "logged_in_users".data] ∧
      (∀ e, env.cpu_result = .error e →
          jLookup fields "cpu_info".data = some (errorMarker e.msg)) ∧
      (∀ e, env.proc_result = .error e →
          jLookup fields "running_processes".data
            = some (.arr [errorMarker (procErrText ++ e.msg)])) ∧
      (∀ e, env.users_result = .error e →
          jLookup fields "logged_in_users".data = some (errorMarker e.msg)) := by
  obtain ⟨psys, pver, cpu, proc, users⟩ := env
  cases proc with
  | ok ps =>
    cases cpu with
    | ok c =>
      cases users with
      | ok us =>
        refine ⟨_, rfl, rfl, ?_, ?_, ?_⟩ <;> · intro e he; exact nomatch he
      | error eu =>
        refine ⟨_, rfl, rfl, ?_, ?_, ?_⟩
        · intro e he; exact nomatch he
        · intro e he; exact nomatch he
        · intro e he; cases he; rfl
    | error ec =>
      cases users with
      | ok us =>
        refine ⟨_, rfl, rfl, ?_, ?_, ?_⟩
        · intro e he; cases he; rfl
        · intro e he; exact nomatch he
        · intro e he; exact nomatch he
      | error eu =>
        refine ⟨_, rfl, rfl, ?_, ?_, ?_⟩
        · intro e he; cases he; rfl
        · intro e he; exact nomatch he
        · intro e he; cases he; rfl
  | error ep =>
    have hcaught : caughtInProcBlock ep.kind = true := by
      rcases h with ⟨ps, hp⟩ | ⟨e, he, hc⟩
      · exact nomatch hp
      · cases he; exact hc
    obtain ⟨k, m⟩ := ep
    cases k
    case generic => exact nomatch hcaught
    all_goals
      cases cpu with
      | ok c =>
        cases users with
        | ok us =>
          refine ⟨_, rfl, rfl, ?_, ?_, ?_⟩
          · intro e he; exact nomatch he
          · intro e he; cases he; rfl
          · intro e he; exact nomatch he
        | error eu =>
          refine ⟨_, rfl, rfl, ?_, ?_, ?_⟩
          · intro e he; exact nomatch he
          · intro e he; cases he; rfl
          · intro e he; cases he; rfl
      | error ec =>
        cases users with
        | ok us =>
          refine ⟨_, rfl, rfl, ?_, ?_, ?_⟩
          · intro e he; cases he; rfl
          · intro e he; cases he; rfl
          · intro e he; exact nomatch he
        | error eu =>
          refine ⟨_, rfl, rfl, ?_, ?_, ?_⟩
          · intro e he; cases he; rfl
          · intro e he; cases he; rfl
          · intro e he; cases he; rfl

/-- Witness for the amended C1: all three sub-collections fail, the process
query with a caught psutil exception; the snapshot is all error markers. -/
theorem c1_witness :
    ∃ fields,
      get_system_info ⟨"Linux".data, "5.0".data,
          .error ⟨.generic, "cfail".data⟩,
          .error ⟨.accessDenied, "pfail".data⟩,
          .error ⟨.generic, "ufail".data⟩⟩ = .ok (.obj fields) ∧
      fields.map Prod.fst = ["os_name".data, "os_version".data, "cpu_info".data,
        "running_processes".data, "logged_in_users".data] ∧
      (∀ e, (Except.error ⟨.generic, "cfail".data⟩ : Except PyExc CpuRaw) = .error e →
          jLookup fields "cpu_info".data = some (errorMarker e.msg)) ∧
      (∀ e, (Except.error ⟨.accessDenied, "pfail".data⟩ : Except PyExc (List ProcRaw)) = .error e →
          jLookup fields "running_processes".data
            = some (.arr [errorMarker (procErrText ++ e.msg)])) ∧
      (∀ e, (Except.error ⟨.generic, "ufail".data⟩ : Except PyExc (List UserRaw)) = .error e →
          jLookup fields "logged_in_users".data = some (errorMarker e.msg)) :=
  c1_amended_returns_snapshot_when_proc_exception_caught _
    (.inr ⟨⟨.accessDenied, "pfail".data⟩, rfl, rfl⟩)

/- ## Claim C2 -/

/-- Counterexample to claim C2 as stated: a `POST /collect` with a valid
token whose body carries an extra top-level key (`extra_field`) outside the
declared `SystemSnapshot` shape is NOT rejected — pydantic's default config
ignores unknown fields, the request succeeds and one record is written. -/
theorem c2_counterexample :
    (post_collect agentAuthHeader
        (.obj (sampleFields ++ [("extra_field".data, .int 99)]))
        "10.0.0.6".data "2024-02-03".data "T1".data []).2
      = .ok (successJson "10.0.0.6".data) ∧
    (post_collect agentAuthHeader
        (.obj (sampleFields ++ [("extra_field".data, .int 99)]))
        "10.0.0.6".data "2024-02-03".data "T1".data []).1
      = [("10.0.0.6_2024-02-03.jsonl".data,
          [Line.ok (recordJson "T1".data (model_dump sampleData))])] :=
  ⟨rfl, rfl⟩

/-- Claim C2 (amended): the collector's validation ignores top-level keys
outside the declared `SystemSnapshot` shape (pydantic default, not a strict
schema gate): appending an extra key distinct from the five declared field
names leaves validation — and therefore the whole `/collect` request,
including what is written — unchanged; a 422 arises only from the declared
fields themselves (missing or mistyped). -/
theorem c2_amended_extra_fields_ignored
    (fs : List (PyStr × Json)) (k : PyStr) (v : Json)
    (h1 : k ≠ "os_name".data) (h2 : k ≠ "os_version".data)
    (h3 : k ≠ "cpu_info".data) (h4 : k ≠ "running_processes".data)
    (h5 : k ≠ "logged_in_users".data) :
    validate_SystemData (.obj (fs ++ [(k, v)])) = validate_SystemData (.obj fs) ∧
    ∀ auth ip date iso storage,
      post_collect auth (.obj (fs ++ [(k, v)])) ip date iso storage
        = post_collect auth (.obj fs) ip date iso storage := by
  have hval : validate_SystemData (.obj (fs ++ [(k, v)])) = validate_SystemData (.obj fs) := by
    simp only [validate_SystemData]
    rw [jLookup_append_single fs v h1, jLookup_append_single fs v h2,
        jLookup_append_single fs v h3, jLookup_append_single fs v h4,
        jLookup_append_single fs v h5]
  refine ⟨hval, ?_⟩
  intro auth ip date iso storage
  unfold post_collect
  rw [hval]

/-- Witness for the amended C2: adding `extra_field` to the sample body does
not change the validation result. -/
theorem c2_witness :
    validate_SystemData (.obj (sampleFields ++ [("extra_field".data, .int 99)]))
      = validate_SystemData (.obj sampleFields) :=
  (c2_amended_extra_fields_ignored sampleFields "extra_field".data (.int 99)
    (by decide) (by decide) (by decide) (by decide) (by decide)).1

/- ## Claim C9 -/

theorem validateProcEntry_isSome (j : Json) :
    (validateProcEntry j).isSome = true ↔ ∃ fs, j = .obj fs := by
  cases j with
  | null => exact ⟨fun h => (nomatch h), fun ⟨fs, hf⟩ => (nomatch hf)⟩
  | bool b => exact ⟨fun h => (nomatch h), fun ⟨fs, hf⟩ => (nomatch hf)⟩
  | int n => exact ⟨fun h => (nomatch h), fun ⟨fs, hf⟩ => (nomatch hf)⟩
  | str s => exact ⟨fun h => (nomatch h), fun ⟨fs, hf⟩ => (nomatch hf)⟩
  | arr elems => exact ⟨fun h => (nomatch h), fun ⟨fs, hf⟩ => (nomatch hf)⟩
  | obj fields =>
    cases hp : validateProcessInfo (.obj fields) with
    | some p => exact ⟨fun _ => ⟨fields, rfl⟩, fun _ => by simp [validateProcEntry, hp]⟩
    | none => exact ⟨fun _ => ⟨fields, rfl⟩, fun _ => by simp [validateProcEntry, hp]⟩

theorem mapOpt_isSome {α β : Type} (f : α → Option β) (xs : List α) :
    (mapOpt f xs).isSome = true ↔ ∀ x ∈ xs, (f x).isSome = true := by
  induction xs with
  | nil => simp [mapOpt]
  | cons x xs ih =>
    constructor
    · intro h
      unfold mapOpt at h
      cases hf : f x with
      | none => rw [hf] at h; simp at h
      | some y =>
        rw [hf] at h
        cases hm : mapOpt f xs with
        | none => rw [hm] at h; simp at h
        | some ys =>
          intro z hz
          rcases List.mem_cons.1 hz with rfl | hz
          · simp [hf]
          · exact (ih.1 (by simp [hm])) z hz
    · intro h
      unfold mapOpt
      have hx := h x (List.mem_cons_self _ _)
      cases hf : f x with
      | none => rw [hf] at hx; simp at hx
      | some y =>
        have hrest : (mapOpt f xs).isSome = true :=
          ih.2 fun z hz => h z (List.mem_cons_of_mem _ hz)
        cases hm : mapOpt f xs with
        | none => rw [hm] at hrest; simp at hrest
        | some ys => simp [hf, hm]

theorem validateUsersVal_isSome (j : Json) :
    (validateUsersVal j).isSome = true ↔
      ((∃ elems, j = .arr elems ∧ ∀ e ∈ elems, (validateUserInfo e).isSome = true) ∨
       (∃ fs, j = .obj fs)) := by
  cases j with
  | null =>
    refine ⟨fun h => (nomatch h), fun h => ?_⟩
    rcases h with ⟨e2, he, _⟩ | ⟨fs, hf⟩
    · exact nomatch he
    · exact nomatch hf
  | bool b =>
    refine ⟨fun h => (nomatch h), fun h => ?_⟩
    rcases h with ⟨e2, he, _⟩ | ⟨fs, hf⟩
    · exact nomatch he
    · exact nomatch hf
  | int n =>
    refine ⟨fun h => (nomatch h), fun h => ?_⟩
    rcases h with ⟨e2, he, _⟩ | ⟨fs, hf⟩
    · exact nomatch he
    · exact nomatch hf
  | str s =>
    refine ⟨fun h => (nomatch h), fun h => ?_⟩
    rcases h with ⟨e2, he, _⟩ | ⟨fs, hf⟩
    · exact nomatch he
    · exact nomatch hf
  | obj fields => exact ⟨fun _ => .inr ⟨fields, rfl⟩, fun _ => rfl⟩
  | arr elems =>
    constructor
    · intro h
      cases hm : mapOpt validateUserInfo elems with
      | none =>
        exfalso
        have hz : validateUsersVal (.arr elems) = none := by
          simp [validateUsersVal, hm]
        rw [hz] at h
        exact nomatch h
      | some us =>
        exact .inl ⟨elems, rfl, (mapOpt_isSome _ _).1 (by simp [hm])⟩
    · intro h
      rcases h with ⟨e2, he, hall⟩ | ⟨fs, hf⟩
      · injection he with h'
        subst h'
        have hs := (mapOpt_isSome validateUserInfo elems).2 hall
        cases hm : mapOpt validateUserInfo elems with
        | none => rw [hm] at hs; exact nomatch hs
        | some us =>
          show (validateUsersVal (.arr elems)).isSome = true
          simp [validateUsersVal, hm]
      · exact nomatch hf

/-- Claim C9 (amended): the collector's union-typed fields are far looser
than the spec's two shapes.  `running_processes` (validated element-wise
against `ProcessInfo | dict`) accepts a list exactly when every element is a
JSON object — any object, error marker or not, of any length; and
`logged_in_users` (validated against `list[UserInfo] | dict`) accepts
exactly the lists of valid `UserInfo` objects and arbitrary single JSON
objects.  Non-object elements (and non-list, non-object values) are what is
rejected. -/
theorem c9_union_fields_accept_arbitrary_dicts :
    (∀ pes : List Json, (mapOpt validateProcEntry pes).isSome = true ↔
        ∀ x ∈ pes, ∃ fs, x = .obj fs) ∧
    (∀ j : Json, (validateUsersVal j).isSome = true ↔
        ((∃ elems, j = .arr elems ∧ ∀ e ∈ elems, (validateUserInfo e).isSome = true) ∨
         (∃ fs, j = .obj fs))) := by
  constructor
  · intro pes
    rw [mapOpt_isSome]
    exact forall₂_congr fun x _ => validateProcEntry_isSome x
  · exact validateUsersVal_isSome

/-- Witness for C9: an arbitrary non-error dict is a valid
`running_processes` element. -/
theorem c9_witness :
    (mapOpt validateProcEntry [Json.obj [("haha".data, .int 1)]]).isSome = true :=
  (c9_union_fields_accept_arbitrary_dicts.1 [Json.obj [("haha".data, .int 1)]]).2
    (by
      intro x hx
      rcases List.mem_singleton.1 hx with rfl
      exact ⟨_, rfl⟩)

/-- Counterexample to claim C9 as stated: a full snapshot whose
`running_processes` contains an arbitrary non-error dict and whose
`logged_in_users` is an arbitrary non-error dict passes `SystemData`
validation, where the claim says any such shape is rejected. -/
theorem c9_counterexample :
    validate_SystemData (.obj
      [("os_name".data, .str "L".data),
       ("os_version".data, .str "1".data),
       ("cpu_info".data, .obj []),
       ("running_processes".data, .arr [.obj [("haha".data, .int 1)]]),
       ("logged_in_users".data, .obj [("whatever".data, .int 2)])])
      = some ⟨"L".data, "1".data, ⟨none, none, none, none, none⟩,
              [.rawDict [("haha".data, .int 1)]],
              .rawDict [("whatever".data, .int 2)]⟩ := rfl
